import Mathlib

/-!
Verification of the event/session pipeline of the memory-archaeology
viewer (`models.py`, `timeline.py`, `story_generator.py`,
`main_memory_engine.py`).

Timestamps are embedded as integer seconds (`Int`); the sources parse
`"YYYY-MM-DD HH:MM"` timestamps, and all the code under verification uses
timestamps only through comparison, subtraction (against
`timedelta(minutes=g)`, i.e. `60*g` seconds), the date component, and the
hour/minute components, all of which are exact over integer seconds.
`Int.fdiv`/`Int.emod` (floor conventions) match Python's `//`/`%` and the
day/time-of-day split of a timestamp.

Python `set`s have an unspecified (hash-dependent) iteration order, so the
`list(set)` conversions in `summarize_session` are modelled by an explicit
enumeration parameter `σ`; an admissible `σ` returns a permutation of the
set's contents (given to it as the deduplicated first-seen list).
-/

namespace MemViewer

/-- Seconds per day. -/
def secPerDay : Int := 86400

/-- `datetime.date()`: the calendar-day component of a timestamp
(floor division, as Python's date rollover). -/
def dateOf (t : Int) : Int := t.fdiv secPerDay

/-- `datetime.hour`. -/
def hourOf (t : Int) : Int := (t.emod secPerDay).fdiv 3600

/-- `datetime.minute`. -/
def minuteOf (t : Int) : Int := ((t.emod secPerDay).emod 3600).fdiv 60

/-- `models.Event` (`models.py`): the unified record all sources map into.
`details` is an opaque string-keyed payload the core never inspects. -/
structure Event where
  id : String
  timestamp_start : Int
  timestamp_end : Option Int
  source_type : String
  title : String
  details : List (String × String)
  people : List String
  location : Option String
deriving DecidableEq, Repr

/-- `timeline.filter_events_for_day`: keep the events whose start falls on
`target_date`, then sort them by start time.  Python's `sorted` is a
stable sort by the key; a stable sort's output is uniquely determined, and
`List.mergeSort` is stable, so it is the faithful model. -/
def filter_events_for_day (events : List Event) (target_date : Int) : List Event :=
  (events.filter (fun e => dateOf e.timestamp_start == target_date)).mergeSort
    (fun a b => a.timestamp_start ≤ b.timestamp_start)

/-- The loop body of `timeline.group_into_sessions`: `prev` is the event
consumed just before the remaining list (always the last event of
`cur`), `cur` the session under construction, `acc` the finished
sessions.  The gap test `curr.timestamp_start - prev.timestamp_start <=
timedelta(minutes=gap_minutes)` is `60 * gap_minutes` in seconds. -/
def sessGo (gap_minutes : Int) : Event → List Event → List Event → List (List Event) → List (List Event)
  | _, [], cur, acc => acc ++ [cur]
  | prev, c :: rs, cur, acc =>
    if c.timestamp_start - prev.timestamp_start ≤ 60 * gap_minutes then
      sessGo gap_minutes c rs (cur ++ [c]) acc
    else
      sessGo gap_minutes c rs [c] (acc ++ [cur])

/-- `timeline.group_into_sessions`. -/
def group_into_sessions (events : List Event) (gap_minutes : Int) : List (List Event) :=
  match events with
  | [] => []
  | e :: rest => sessGo gap_minutes e rest [e] []

/-- Events ordered by start timestamp (the precondition the Session
Grouper assumes). -/
def SortedByStart (events : List Event) : Prop :=
  List.Chain' (fun a b => a.timestamp_start ≤ b.timestamp_start) events

instance (events : List Event) : Decidable (SortedByStart events) :=
  inferInstanceAs (Decidable (List.Chain' _ events))

/-- Boundary relation between two adjacent sessions: the start-to-start
gap from the last event of the first to the first event of the second
exceeds the threshold (in seconds). -/
def sessionBoundary (gap_minutes : Int) (s t : List Event) : Bool :=
  match s.getLast?, t.head? with
  | some a, some b => decide (60 * gap_minutes < b.timestamp_start - a.timestamp_start)
  | _, _ => true

/-- Within-session relation: consecutive events' start-to-start difference
is at most the threshold. -/
def withinGap (gap_minutes : Int) (a b : Event) : Prop :=
  b.timestamp_start - a.timestamp_start ≤ 60 * gap_minutes

instance (g : Int) (a b : Event) : Decidable (withinGap g a b) :=
  inferInstanceAs (Decidable (_ ≤ _))

theorem sessGo_flatten (gap : Int) :
    ∀ (rs : List Event) (prev : Event) (cur : List Event) (acc : List (List Event)),
      (sessGo gap prev rs cur acc).flatten = acc.flatten ++ cur ++ rs := by
  intro rs
  induction rs with
  | nil => intro prev cur acc; simp [sessGo]
  | cons c rs ih =>
    intro prev cur acc
    simp only [sessGo]
    by_cases h : c.timestamp_start - prev.timestamp_start ≤ 60 * gap
    · rw [if_pos h, ih]; simp
    · rw [if_neg h, ih]; simp

theorem sessGo_ne_nil (gap : Int) :
    ∀ (rs : List Event) (prev : Event) (cur : List Event) (acc : List (List Event)),
      cur ≠ [] → (∀ s ∈ acc, s ≠ []) →
      ∀ s ∈ sessGo gap prev rs cur acc, s ≠ [] := by
  intro rs
  induction rs with
  | nil =>
    intro prev cur acc hcur hacc s hs
    simp only [sessGo, List.mem_append, List.mem_singleton] at hs
    rcases hs with hs | hs
    · exact hacc s hs
    · rw [hs]; exact hcur
  | cons c rs ih =>
    intro prev cur acc hcur hacc
    simp only [sessGo]
    by_cases h : c.timestamp_start - prev.timestamp_start ≤ 60 * gap
    · rw [if_pos h]
      exact ih c (cur ++ [c]) acc (by simp) hacc
    · rw [if_neg h]
      refine ih c [c] (acc ++ [cur]) (by simp) ?_
      intro s hs
      rcases List.mem_append.mp hs with hs | hs
      · exact hacc s hs
      · rw [List.mem_singleton.mp hs]; exact hcur

theorem sessGo_chain_within (gap : Int) :
    ∀ (rs : List Event) (prev : Event) (cur : List Event) (acc : List (List Event)),
      cur.getLast? = some prev →
      List.Chain' (withinGap gap) cur →
      (∀ s ∈ acc, List.Chain' (withinGap gap) s) →
      ∀ s ∈ sessGo gap prev rs cur acc, List.Chain' (withinGap gap) s := by
  intro rs
  induction rs with
  | nil =>
    intro prev cur acc _ hcur hacc s hs
    simp only [sessGo, List.mem_append, List.mem_singleton] at hs
    rcases hs with hs | hs
    · exact hacc s hs
    · rw [hs]; exact hcur
  | cons c rs ih =>
    intro prev cur acc hlast hcur hacc
    simp only [sessGo]
    by_cases h : c.timestamp_start - prev.timestamp_start ≤ 60 * gap
    · rw [if_pos h]
      refine ih c (cur ++ [c]) acc (List.getLast?_concat _) ?_ hacc
      rw [List.chain'_append]
      refine ⟨hcur, List.chain'_singleton c, ?_⟩
      intro x hx y hy
      rw [hlast] at hx
      simp only [Option.mem_def, Option.some_inj] at hx
      simp only [List.head?_cons, Option.mem_def, Option.some_inj] at hy
      rw [← hx, ← hy]
      exact h
    · rw [if_neg h]
      refine ih c [c] (acc ++ [cur]) rfl (List.chain'_singleton c) ?_
      intro s hs
      rcases List.mem_append.mp hs with hs | hs
      · exact hacc s hs
      · rw [List.mem_singleton.mp hs]; exact hcur

theorem sessionBoundary_congr_head (gap : Int) (s : List Event) {t t' : List Event}
    (h : t.head? = t'.head?) : sessionBoundary gap s t = sessionBoundary gap s t' := by
  unfold sessionBoundary
  rw [h]

theorem sessGo_chain_boundary (gap : Int) :
    ∀ (rs : List Event) (prev : Event) (cur : List Event) (acc : List (List Event)),
      cur.getLast? = some prev → cur ≠ [] →
      List.Chain' (fun s t => sessionBoundary gap s t = true) (acc ++ [cur]) →
      List.Chain' (fun s t => sessionBoundary gap s t = true) (sessGo gap prev rs cur acc) := by
  intro rs
  induction rs with
  | nil =>
    intro prev cur acc _ _ hchain
    simpa [sessGo] using hchain
  | cons c rs ih =>
    intro prev cur acc hlast hne hchain
    simp only [sessGo]
    by_cases h : c.timestamp_start - prev.timestamp_start ≤ 60 * gap
    · rw [if_pos h]
      refine ih c (cur ++ [c]) acc (List.getLast?_concat _) (by simp) ?_
      rw [List.chain'_append] at hchain ⊢
      refine ⟨hchain.1, List.chain'_singleton _, ?_⟩
      intro x hx y hy
      simp only [List.head?_cons, Option.mem_def, Option.some_inj] at hy
      subst hy
      have hh : (cur ++ [c]).head? = cur.head? := by
        cases cur with
        | nil => exact absurd rfl hne
        | cons a l => simp
      rw [sessionBoundary_congr_head gap x hh]
      exact hchain.2.2 x hx cur (by simp)
    · rw [if_neg h]
      refine ih c [c] (acc ++ [cur]) rfl (by simp) ?_
      rw [List.chain'_append]
      refine ⟨hchain, List.chain'_singleton _, ?_⟩
      intro x hx y hy
      rw [List.getLast?_concat] at hx
      simp only [Option.mem_def, Option.some_inj] at hx
      simp only [List.head?_cons, Option.mem_def, Option.some_inj] at hy
      rw [← hx, ← hy]
      unfold sessionBoundary
      rw [hlast]
      simp only [List.head?_cons]
      exact decide_eq_true (by omega)

theorem sessGo_chain_sorted (gap : Int) :
    ∀ (rs : List Event) (prev : Event) (cur : List Event) (acc : List (List Event)),
      List.Chain' (fun a b => a.timestamp_start ≤ b.timestamp_start) (cur ++ rs) →
      (∀ s ∈ acc, List.Chain' (fun a b => a.timestamp_start ≤ b.timestamp_start) s) →
      ∀ s ∈ sessGo gap prev rs cur acc,
        List.Chain' (fun a b => a.timestamp_start ≤ b.timestamp_start) s := by
  intro rs
  induction rs with
  | nil =>
    intro prev cur acc hcur hacc s hs
    simp only [sessGo, List.mem_append, List.mem_singleton] at hs
    rcases hs with hs | hs
    · exact hacc s hs
    · rw [hs]; simpa using hcur
  | cons c rs ih =>
    intro prev cur acc hcur hacc
    simp only [sessGo]
    by_cases h : c.timestamp_start - prev.timestamp_start ≤ 60 * gap
    · rw [if_pos h]
      refine ih c (cur ++ [c]) acc ?_ hacc
      simpa [List.append_assoc] using hcur
    · rw [if_neg h]
      refine ih c [c] (acc ++ [cur]) ?_ ?_
      · exact (List.chain'_append.mp hcur).2.1
      · intro s hs
        rcases List.mem_append.mp hs with hs | hs
        · exact hacc s hs
        · rw [List.mem_singleton.mp hs]
          exact (List.chain'_append.mp hcur).1

/-- C1: on sorted, non-empty input, `group_into_sessions` returns a
partition of the input (concatenating the sessions gives back the input
exactly), consecutive events inside a session are within the start-to-start
gap threshold, and the last event of a session is separated from the first
event of the next session by more than the threshold. -/
theorem grouper_partitions (events : List Event) (gap_minutes : Int)
    (_hsorted : SortedByStart events) (_hne : events ≠ []) :
    (group_into_sessions events gap_minutes).flatten = events ∧
    (∀ s ∈ group_into_sessions events gap_minutes,
      List.Chain' (withinGap gap_minutes) s) ∧
    List.Chain' (fun s t => sessionBoundary gap_minutes s t = true)
      (group_into_sessions events gap_minutes) := by
  cases events with
  | nil => exact absurd rfl _hne
  | cons e rest =>
    refine ⟨?_, ?_, ?_⟩
    · rw [group_into_sessions, sessGo_flatten]
      simp
    · exact sessGo_chain_within gap_minutes rest e [e] [] rfl
        (List.chain'_singleton e) (by intro s hs; simp at hs)
    · exact sessGo_chain_boundary gap_minutes rest e [e] [] rfl (by simp)
        (by simp)

/-- Witness for C1 at the spec's Scenario 1: starts 09:00, 09:30, 11:30
with a 60-minute threshold. -/
theorem grouper_partitions_witness :
    SortedByStart [⟨"a", 32400, none, "calendar", "", [], [], none⟩,
                   ⟨"b", 34200, none, "calendar", "", [], [], none⟩,
                   ⟨"c", 41400, none, "calendar", "", [], [], none⟩] ∧
    ((group_into_sessions [⟨"a", 32400, none, "calendar", "", [], [], none⟩,
                   ⟨"b", 34200, none, "calendar", "", [], [], none⟩,
                   ⟨"c", 41400, none, "calendar", "", [], [], none⟩] 60).flatten
        = [⟨"a", 32400, none, "calendar", "", [], [], none⟩,
                   ⟨"b", 34200, none, "calendar", "", [], [], none⟩,
                   ⟨"c", 41400, none, "calendar", "", [], [], none⟩] ∧
      (∀ s ∈ group_into_sessions [⟨"a", 32400, none, "calendar", "", [], [], none⟩,
                   ⟨"b", 34200, none, "calendar", "", [], [], none⟩,
                   ⟨"c", 41400, none, "calendar", "", [], [], none⟩] 60,
        List.Chain' (withinGap 60) s) ∧
      List.Chain' (fun s t => sessionBoundary 60 s t = true)
        (group_into_sessions [⟨"a", 32400, none, "calendar", "", [], [], none⟩,
                   ⟨"b", 34200, none, "calendar", "", [], [], none⟩,
                   ⟨"c", 41400, none, "calendar", "", [], [], none⟩] 60)) :=
  ⟨by simp [SortedByStart], grouper_partitions _ 60 (by simp [SortedByStart]) (by simp)⟩

/-- C10 (implicit): `group_into_sessions` conserves its input with no
sortedness assumption — the concatenation of the returned sessions is the
input list itself (so nothing is lost, duplicated, reordered across the
partition, or mutated), and every returned session is non-empty. -/
theorem grouper_conserves (events : List Event) (gap_minutes : Int) :
    (group_into_sessions events gap_minutes).flatten = events ∧
    ∀ s ∈ group_into_sessions events gap_minutes, s ≠ [] := by
  cases events with
  | nil => exact ⟨rfl, by intro s hs; simp [group_into_sessions] at hs⟩
  | cons e rest =>
    constructor
    · rw [group_into_sessions, sessGo_flatten]; simp
    · exact sessGo_ne_nil gap_minutes rest e [e] [] (by simp)
        (by intro s hs; simp at hs)

theorem chain'_eq_of_chain'_le_of_chain'_ge {l : List Event}
    (h1 : List.Chain' (fun a b => a.timestamp_start ≤ b.timestamp_start) l)
    (h2 : List.Chain' (withinGap 0) l) :
    List.Chain' (fun a b => a.timestamp_start = b.timestamp_start) l := by
  rw [List.chain'_iff_get] at h1 h2 ⊢
  intro i hi
  have g1 := h1 i hi
  have g2 := h2 i hi
  unfold withinGap at g2
  omega

/-- C6: the grouper's edge cases — empty input gives an empty session
list, a single event gives one singleton session, and with a zero
threshold (on sorted input) events in one session all share the same
start timestamp while adjacent sessions start at different timestamps. -/
theorem grouper_edge_cases :
    (∀ gap_minutes : Int, group_into_sessions [] gap_minutes = []) ∧
    (∀ (e : Event) (gap_minutes : Int), group_into_sessions [e] gap_minutes = [[e]]) ∧
    (∀ events : List Event, SortedByStart events →
      (∀ s ∈ group_into_sessions events 0,
        List.Chain' (fun a b => a.timestamp_start = b.timestamp_start) s) ∧
      List.Chain' (fun s t => ∀ a ∈ s.getLast?, ∀ b ∈ t.head?,
        a.timestamp_start ≠ b.timestamp_start) (group_into_sessions events 0)) := by
  refine ⟨fun _ => rfl, fun e g => rfl, ?_⟩
  intro events hsorted
  constructor
  · intro s hs
    cases events with
    | nil => simp [group_into_sessions] at hs
    | cons e rest =>
      have hle := sessGo_chain_sorted 0 rest e [e] []
        (by simpa using hsorted) (by intro s hs; simp at hs) s hs
      have hwg := sessGo_chain_within 0 rest e [e] [] rfl
        (List.chain'_singleton e) (by intro s hs; simp at hs) s hs
      exact chain'_eq_of_chain'_le_of_chain'_ge hle hwg
  · cases events with
    | nil => simp [group_into_sessions]
    | cons e rest =>
      have hb := sessGo_chain_boundary 0 rest e [e] [] rfl (by simp) (by simp)
      refine hb.imp ?_
      intro s t hst a ha b hhb
      unfold sessionBoundary at hst
      simp only [Option.mem_def] at ha hhb
      rw [ha, hhb] at hst
      have := of_decide_eq_true hst
      omega

/-- Witness for C6: empty input, a singleton, and a zero-threshold run
over starts 0, 0, 3600 (two identical starts merge; the distinct start
opens a new session). -/
theorem grouper_edge_cases_witness :
    group_into_sessions [] 60 = [] ∧
    group_into_sessions [⟨"a", 0, none, "gps", "", [], [], none⟩] 60 =
      [[⟨"a", 0, none, "gps", "", [], [], none⟩]] ∧
    SortedByStart [⟨"a", 0, none, "gps", "", [], [], none⟩,
      ⟨"b", 0, none, "gps", "", [], [], none⟩,
      ⟨"c", 3600, none, "gps", "", [], [], none⟩] ∧
    ((∀ s ∈ group_into_sessions [⟨"a", 0, none, "gps", "", [], [], none⟩,
        ⟨"b", 0, none, "gps", "", [], [], none⟩,
        ⟨"c", 3600, none, "gps", "", [], [], none⟩] 0,
      List.Chain' (fun a b => a.timestamp_start = b.timestamp_start) s) ∧
     List.Chain' (fun s t => ∀ a ∈ s.getLast?, ∀ b ∈ t.head?,
        a.timestamp_start ≠ b.timestamp_start)
       (group_into_sessions [⟨"a", 0, none, "gps", "", [], [], none⟩,
        ⟨"b", 0, none, "gps", "", [], [], none⟩,
        ⟨"c", 3600, none, "gps", "", [], [], none⟩] 0)) :=
  ⟨grouper_edge_cases.1 60, grouper_edge_cases.2.1 _ 60,
   by simp [SortedByStart], grouper_edge_cases.2.2 _ (by simp [SortedByStart])⟩

/-- Witness for C10: conservation holds on an *unsorted* input (starts
600 then 0; with threshold 0 the negative difference keeps both events in
one session, and nothing is lost). -/
theorem grouper_conserves_witness :
    (group_into_sessions [⟨"u", 600, none, "gps", "", [], [], none⟩,
        ⟨"v", 0, none, "gps", "", [], [], none⟩] 0).flatten =
      [⟨"u", 600, none, "gps", "", [], [], none⟩,
        ⟨"v", 0, none, "gps", "", [], [], none⟩] ∧
    ([⟨"u", 600, none, "gps", "", [], [], none⟩,
        ⟨"v", 0, none, "gps", "", [], [], none⟩] ≠ ([] : List Event)) :=
  ⟨(grouper_conserves [⟨"u", 600, none, "gps", "", [], [], none⟩,
      ⟨"v", 0, none, "gps", "", [], [], none⟩] 0).1,
   (grouper_conserves [⟨"u", 600, none, "gps", "", [], [], none⟩,
      ⟨"v", 0, none, "gps", "", [], [], none⟩] 0).2
     [⟨"u", 600, none, "gps", "", [], [], none⟩,
      ⟨"v", 0, none, "gps", "", [], [], none⟩] (by decide)⟩

/-- C5: the day filter keeps exactly the events whose start's date
component is the target date, sorted ascending by start; events with equal
start timestamps keep their relative input order (stability), the result
draws only from the input, and its length is the number of matching input
events. -/
theorem day_filter_correct (events : List Event) (target_date : Int) :
    (∀ e ∈ filter_events_for_day events target_date,
        dateOf e.timestamp_start = target_date) ∧
    (∀ e ∈ events, dateOf e.timestamp_start = target_date →
        e ∈ filter_events_for_day events target_date) ∧
    (∀ e ∈ filter_events_for_day events target_date, e ∈ events) ∧
    List.Pairwise (fun a b => a.timestamp_start ≤ b.timestamp_start)
      (filter_events_for_day events target_date) ∧
    (∀ t : Int, (filter_events_for_day events target_date).filter
          (fun e => e.timestamp_start == t)
        = events.filter
            (fun e => e.timestamp_start == t && dateOf e.timestamp_start == target_date)) ∧
    (filter_events_for_day events target_date).length
      = events.countP (fun e => dateOf e.timestamp_start == target_date) := by
  have htrans : ∀ a b c : Event,
      (a.timestamp_start ≤ b.timestamp_start : Bool) = true →
      (b.timestamp_start ≤ c.timestamp_start : Bool) = true →
      (a.timestamp_start ≤ c.timestamp_start : Bool) = true := by
    intro a b c hab hbc
    simp only [decide_eq_true_eq] at *
    omega
  have htotal : ∀ a b : Event,
      ((a.timestamp_start ≤ b.timestamp_start : Bool)
        || (b.timestamp_start ≤ a.timestamp_start : Bool)) = true := by
    intro a b
    simp only [Bool.or_eq_true, decide_eq_true_eq]
    omega
  have hperm : List.Perm (filter_events_for_day events target_date)
      (events.filter (fun e => dateOf e.timestamp_start == target_date)) :=
    List.mergeSort_perm _ _
  refine ⟨?_, ?_, ?_, ?_, ?_, ?_⟩
  · intro e he
    have := hperm.mem_iff.mp he
    have := (List.mem_filter.mp this).2
    simpa using this
  · intro e he hd
    exact hperm.mem_iff.mpr (List.mem_filter.mpr ⟨he, by simpa using hd⟩)
  · intro e he
    exact (List.mem_filter.mp (hperm.mem_iff.mp he)).1
  · have := List.sorted_mergeSort htrans htotal
      (events.filter (fun e => dateOf e.timestamp_start == target_date))
    exact this.imp (fun h => by simpa using h)
  · intro t
    set l := events.filter (fun e => dateOf e.timestamp_start == target_date) with hl
    set p : Event → Bool := fun e => e.timestamp_start == t with hp
    have hmem_start : ∀ e ∈ l.filter p, e.timestamp_start = t := by
      intro e he
      have := (List.mem_filter.mp he).2
      simpa [hp] using this
    have hpair : (l.filter p).Pairwise
        (fun a b => (a.timestamp_start ≤ b.timestamp_start : Bool) = true) := by
      refine List.pairwise_of_forall_mem_list ?_
      intro a ha b hb
      have := hmem_start a ha
      have := hmem_start b hb
      simp only [decide_eq_true_eq]
      omega
    have hsub : List.Sublist (l.filter p) (filter_events_for_day events target_date) :=
      List.sublist_mergeSort htrans htotal hpair (List.filter_sublist l)
    have hidem : (l.filter p).filter p = l.filter p := by
      rw [List.filter_filter]
      exact List.filter_congr (fun e _ => by simp)
    have hsub2 : List.Sublist (l.filter p)
        ((filter_events_for_day events target_date).filter p) := by
      have := hsub.filter p
      rwa [hidem] at this
    have hlen : ((filter_events_for_day events target_date).filter p).length
        = (l.filter p).length := (hperm.filter p).length_eq
    have heq := hsub2.eq_of_length hlen.symm
    rw [← heq, hl, List.filter_filter]
  · rw [hperm.length_eq, ← List.countP_eq_length_filter]

/-- Witness for C5: a matching event is kept by the filter. -/
theorem day_filter_correct_witness :
    (⟨"a", 100, none, "gps", "", [], [], none⟩ : Event) ∈
      filter_events_for_day [⟨"b", 999999, none, "gps", "", [], [], none⟩,
        ⟨"a", 100, none, "gps", "", [], [], none⟩] 0 :=
  (day_filter_correct _ 0).2.1 _ (by decide) (by decide)

/-! ### Sanitizer (`story_generator._sanitize_text`)

The sanitizer is four regex/substring passes plus whitespace cleanup.
Python's `re` on these patterns is deterministic (the character classes of
adjacent greedy pieces are disjoint, so no backtracking ambiguity), and is
embedded as explicit left-to-right scanners.  The scanners carry a `Nat`
fuel so they are structurally recursive; every successful match consumes
at least one character, so fuel equal to the input length always suffices
and the fueled function agrees with the scan it models. -/

/-- Python `\s` / `str.strip` whitespace over the ASCII range. -/
def pyIsSpace (c : Char) : Bool :=
  c == ' ' || c == '\t' || c == '\n' || c == '\r' || c == '\x0b' || c == '\x0c'

/-- Python `\w` (word character) over the ASCII range. -/
def isWordChar (c : Char) : Bool := c.isAlphanum || c == '_'

/-- Case-insensitive character comparison (`re.IGNORECASE` / `str.lower`). -/
def ciEq (a b : Char) : Bool := a.toLower == b.toLower

/-- Case-insensitive "the text begins with this pattern". -/
def startsWithCI : List Char → List Char → Bool
  | [], _ => true
  | _ :: _, [] => false
  | p :: ps, c :: cs => ciEq p c && startsWithCI ps cs

/-- Case-insensitive substring test (Python `pat in text.lower()` for a
lowercase `pat`). -/
def containsCI (pat : List Char) : List Char → Bool
  | [] => startsWithCI pat []
  | c :: cs => startsWithCI pat (c :: cs) || containsCI pat cs

/-- The trailing `\b` after a literal word-character pattern: succeed iff
the next character (if any) is not a word character. -/
def endBoundary : List Char → Option (List Char)
  | [] => some []
  | d :: ds => if isWordChar d then none else some (d :: ds)

/-- One attempt of `\b~?\s*\d+\s*bpm\b` (IGNORECASE) at the current
position; `prevW` is the wordness of the preceding original character
(`false` at the start of the string).  Returns the rest of the text after
the match. -/
def matchBpm (prevW : Bool) (t : List Char) : Option (List Char) :=
  match t with
  | [] => none
  | c0 :: cs =>
    if prevW == isWordChar c0 then none
    else
      let t2 := (if c0 == '~' then cs else c0 :: cs).dropWhile pyIsSpace
      let t4 := (t2.dropWhile Char.isDigit).dropWhile pyIsSpace
      if (t2.takeWhile Char.isDigit).isEmpty then none
      else if startsWithCI ['b', 'p', 'm'] t4 then endBoundary (t4.drop 3)
      else none

/-- One attempt of `\b\d+\s*steps\b` (IGNORECASE) at the current position. -/
def matchSteps (prevW : Bool) (t : List Char) : Option (List Char) :=
  match t with
  | [] => none
  | c0 :: cs =>
    if prevW == isWordChar c0 then none
    else
      let t3 := ((c0 :: cs).dropWhile Char.isDigit).dropWhile pyIsSpace
      if ((c0 :: cs).takeWhile Char.isDigit).isEmpty then none
      else if startsWithCI ['s', 't', 'e', 'p', 's'] t3 then endBoundary (t3.drop 5)
      else none

/-- One attempt of `vital signs[^\.!?]*[\.!?]?` (IGNORECASE) at the
current position. -/
def matchVital (t : List Char) : Option (List Char) :=
  if startsWithCI "vital signs".data t then
    let r := (t.drop 11).dropWhile (fun c => !(c == '.' || c == '!' || c == '?'))
    match r with
    | [] => some []
    | c :: cs => if c == '.' || c == '!' || c == '?' then some cs else some (c :: cs)
  else none

/-- One attempt of a literal case-insensitive term (`re.escape(term)` with
IGNORECASE) at the current position. -/
def matchTerm (pat : List Char) (t : List Char) : Option (List Char) :=
  if startsWithCI pat t then some (t.drop pat.length) else none

/-- `re.sub(pattern, "", text)` as a left-to-right scan: at each position
try the matcher; on a match drop the matched characters and continue right
after it (Python replaces non-overlapping matches left to right),
otherwise emit the character.  `prevW` tracks the wordness of the
preceding character of the original text for `\b`. -/
def scanSub (m : Bool → List Char → Option (List Char)) :
    Nat → Bool → List Char → List Char
  | 0, _, t => t
  | _ + 1, _, [] => []
  | fuel + 1, prevW, c :: cs =>
    match m prevW (c :: cs) with
    | some rest => scanSub m fuel true rest
    | none => c :: scanSub m fuel (isWordChar c) cs

/-- `re.sub(r"\s{2,}", " ", text)`: collapse every run of two or more
whitespace characters into a single space (runs of one are kept as-is). -/
def collapseWs : Nat → List Char → List Char
  | 0, t => t
  | _ + 1, [] => []
  | fuel + 1, c :: cs =>
    if pyIsSpace c then
      if (cs.takeWhile pyIsSpace).isEmpty then c :: collapseWs fuel cs
      else ' ' :: collapseWs fuel (cs.dropWhile pyIsSpace)
    else c :: collapseWs fuel cs

/-- Python `str.strip()`. -/
def pyStrip (t : List Char) : List Char :=
  ((t.dropWhile pyIsSpace).reverse.dropWhile pyIsSpace).reverse

/-- `story_generator._FORBIDDEN_HEALTH_TERMS`, in source order. -/
def FORBIDDEN_HEALTH_TERMS : List (List Char) :=
  ["heart rate".data, "hr".data, "bpm".data, "beats per minute".data,
   "steps".data, "step count".data, "stress".data]

/-- One iteration of the forbidden-term loop: `if term in lowered:
text = re.sub(re.escape(term), "", text, flags=IGNORECASE)`. -/
def applyTerm (t : List Char) (pat : List Char) : List Char :=
  if containsCI pat t then scanSub (fun _ s => matchTerm pat s) t.length false t
  else t

/-- `story_generator._sanitize_text` over a character list. -/
def sanitizeL (t : List Char) : List Char :=
  if t.isEmpty then t
  else
    let t1 := scanSub matchBpm t.length false t
    let t2 := scanSub matchSteps t1.length false t1
    let t3 := scanSub (fun _ s => matchVital s) t2.length false t2
    let t4 := FORBIDDEN_HEALTH_TERMS.foldl applyTerm t3
    pyStrip (collapseWs t4.length t4)

/-- `story_generator._sanitize_text`. -/
def sanitize_text (s : String) : String := ⟨sanitizeL s.data⟩

example : sanitize_text "Morning walk" = "Morning walk" := by decide

example : sanitize_text "HR ~65 bpm" = "~" := by decide

example : sanitize_text "a  b" = "a b" := by decide

example : sanitize_text "hhrr" = "hr" := by decide

example :
    sanitize_text "Morning health check | HR ~65 bpm | 2500 steps | stress low"
      = "Morning health check | ~ | | low" := by decide

/-! ### Cleanliness: inputs the sanitizer leaves untouched -/

/-- The sensitive textual patterns: the vital-signs marker and the
forbidden bare terms.  (The two numeric regexes can only match text that
contains `bpm` resp. `steps`, which are in this list.) -/
def SENSITIVE_PATTERNS : List (List Char) :=
  "vital signs".data :: FORBIDDEN_HEALTH_TERMS

/-- No sensitive pattern occurs (case-insensitively) in the text. -/
def noSensitive (t : List Char) : Bool :=
  SENSITIVE_PATTERNS.all (fun pat => !containsCI pat t)

/-- No two adjacent whitespace characters. -/
def noWsRun : List Char → Bool
  | [] => true
  | [_] => true
  | a :: b :: r => !(pyIsSpace a && pyIsSpace b) && noWsRun (b :: r)

/-- The first character, if any, is not whitespace. -/
def noLeadingWs : List Char → Bool
  | [] => true
  | c :: _ => !pyIsSpace c

/-- Fully clean text: nothing for any pass of the sanitizer to do. -/
def cleanText (t : List Char) : Bool :=
  noSensitive t && noWsRun t && noLeadingWs t && noLeadingWs t.reverse

theorem startsWithCI_suffix_containsCI {pat : List Char} :
    ∀ {t s : List Char}, List.IsSuffix s t → startsWithCI pat s = true →
      containsCI pat t = true := by
  intro t
  induction t with
  | nil =>
    intro s hs hp
    rw [List.suffix_nil.mp hs] at hp
    exact hp
  | cons c cs ih =>
    intro s hs hp
    rcases List.suffix_cons_iff.mp hs with h | h
    · subst h
      simp only [containsCI, Bool.or_eq_true]
      exact Or.inl hp
    · simp only [containsCI, Bool.or_eq_true]
      exact Or.inr (ih h hp)

theorem containsCI_suffix_mono {pat : List Char} :
    ∀ {t s : List Char}, List.IsSuffix s t → containsCI pat s = true →
      containsCI pat t = true := by
  intro t
  induction t with
  | nil =>
    intro s hs hp
    rw [List.suffix_nil.mp hs] at hp
    exact hp
  | cons c cs ih =>
    intro s hs hp
    rcases List.suffix_cons_iff.mp hs with h | h
    · subst h; exact hp
    · simp only [containsCI, Bool.or_eq_true]
      exact Or.inr (ih h hp)

theorem containsCI_suffix_false {pat : List Char} {t s : List Char}
    (h : containsCI pat t = false) (hs : List.IsSuffix s t) :
    containsCI pat s = false := by
  cases hc : containsCI pat s with
  | false => rfl
  | true => rw [containsCI_suffix_mono hs hc] at h; exact absurd h (by simp)

theorem startsWithCI_false_of_not_contains {pat t s : List Char}
    (h : containsCI pat t = false) (hs : List.IsSuffix s t) :
    startsWithCI pat s = false := by
  cases hc : startsWithCI pat s with
  | false => rfl
  | true =>
    rw [startsWithCI_suffix_containsCI hs hc] at h
    exact absurd h (by simp)

theorem matchBpm_none {pw : Bool} {t : List Char}
    (hnc : containsCI "bpm".data t = false) : matchBpm pw t = none := by
  cases t with
  | nil => rfl
  | cons c0 cs =>
    have hsuf : List.IsSuffix
        ((((if (c0 == '~') = true then cs else c0 :: cs).dropWhile
            pyIsSpace).dropWhile Char.isDigit).dropWhile pyIsSpace)
        (c0 :: cs) := by
      have h1 : List.IsSuffix (if (c0 == '~') = true then cs else c0 :: cs)
          (c0 :: cs) := by
        split
        · exact List.suffix_cons c0 cs
        · exact List.suffix_rfl
      exact (List.dropWhile_suffix _).trans
        ((List.dropWhile_suffix _).trans ((List.dropWhile_suffix _).trans h1))
    have hfalse := startsWithCI_false_of_not_contains hnc hsuf
    rw [show ("bpm".data = ['b', 'p', 'm']) from rfl] at hfalse
    simp only [beq_iff_eq] at hfalse
    simp [matchBpm, hfalse]

theorem matchSteps_none {pw : Bool} {t : List Char}
    (hnc : containsCI "steps".data t = false) : matchSteps pw t = none := by
  cases t with
  | nil => rfl
  | cons c0 cs =>
    have hsuf : List.IsSuffix
        (((c0 :: cs).dropWhile Char.isDigit).dropWhile pyIsSpace) (c0 :: cs) :=
      (List.dropWhile_suffix _).trans (List.dropWhile_suffix _)
    have hfalse := startsWithCI_false_of_not_contains hnc hsuf
    rw [show ("steps".data = ['s', 't', 'e', 'p', 's']) from rfl] at hfalse
    simp [matchSteps, hfalse]

theorem matchVital_none {t : List Char}
    (hnc : containsCI "vital signs".data t = false) : matchVital t = none := by
  have hfalse := startsWithCI_false_of_not_contains hnc (List.suffix_rfl (l := t))
  simp [matchVital, hfalse]

theorem matchTerm_none {pat t : List Char}
    (hnc : containsCI pat t = false) : matchTerm pat t = none := by
  have hfalse := startsWithCI_false_of_not_contains hnc (List.suffix_rfl (l := t))
  simp [matchTerm, hfalse]

theorem scanSub_id (m : Bool → List Char → Option (List Char)) :
    ∀ (fuel : Nat) (t : List Char),
      (∀ (pw : Bool) (s : List Char), List.IsSuffix s t → m pw s = none) →
      ∀ pw, scanSub m fuel pw t = t := by
  intro fuel
  induction fuel with
  | zero => intro t _ pw; rfl
  | succ fuel ih =>
    intro t hnone pw
    cases t with
    | nil => rfl
    | cons c cs =>
      simp only [scanSub]
      rw [hnone pw (c :: cs) List.suffix_rfl]
      rw [ih cs (fun pw' s hs => hnone pw' s (hs.trans (List.suffix_cons c cs)))]

theorem collapseWs_id :
    ∀ (fuel : Nat) (t : List Char), noWsRun t = true → collapseWs fuel t = t := by
  intro fuel
  induction fuel with
  | zero => intro t _; rfl
  | succ fuel ih =>
    intro t hw
    cases t with
    | nil => rfl
    | cons c cs =>
      simp only [collapseWs]
      cases cs with
      | nil =>
        cases hsp : pyIsSpace c with
        | false => simp [hsp, ih [] rfl]
        | true => simp [hsp, List.takeWhile]; cases fuel <;> rfl
      | cons d ds =>
        have hw1 : ¬(pyIsSpace c = true ∧ pyIsSpace d = true) := by
          simp only [noWsRun, Bool.and_eq_true] at hw
          intro ⟨h1, h2⟩
          rw [h1, h2] at hw
          simp at hw
        have hw2 : noWsRun (d :: ds) = true := by
          simp only [noWsRun, Bool.and_eq_true] at hw
          exact hw.2
        cases hsp : pyIsSpace c with
        | false => simp only [hsp, Bool.false_eq_true, if_false, ih _ hw2]
        | true =>
          have hd : pyIsSpace d = false := by
            cases hd : pyIsSpace d with
            | false => rfl
            | true => exact absurd ⟨hsp, hd⟩ hw1
          simp only [hsp, if_true, List.takeWhile, hd, List.isEmpty_nil, if_pos,
            ih _ hw2]

theorem pyStrip_id (t : List Char) (h1 : noLeadingWs t = true)
    (h2 : noLeadingWs t.reverse = true) : pyStrip t = t := by
  unfold pyStrip
  have hdw : ∀ (u : List Char), noLeadingWs u = true → u.dropWhile pyIsSpace = u := by
    intro u hu
    cases u with
    | nil => rfl
    | cons c cs =>
      simp only [noLeadingWs, Bool.not_eq_true'] at hu
      simp [List.dropWhile, hu]
  rw [hdw t h1, hdw t.reverse h2, List.reverse_reverse]

theorem applyTerm_id {t pat : List Char} (h : containsCI pat t = false) :
    applyTerm t pat = t := by
  unfold applyTerm
  rw [h]
  simp

/-- Helper shared by the sanitizer claims: on fully clean text every pass
of `_sanitize_text` is the identity. -/
theorem sanitizeL_of_clean (t : List Char) (h : cleanText t = true) :
    sanitizeL t = t := by
  unfold cleanText at h
  simp only [Bool.and_eq_true] at h
  obtain ⟨⟨⟨hsens, hrun⟩, hlead⟩, htrail⟩ := h
  unfold noSensitive at hsens
  rw [List.all_eq_true] at hsens
  have hnc : ∀ pat ∈ SENSITIVE_PATTERNS, containsCI pat t = false := by
    intro pat hp
    have := hsens pat hp
    simpa using this
  have hvital := hnc "vital signs".data (by simp [SENSITIVE_PATTERNS])
  have hheart := hnc "heart rate".data (by simp [SENSITIVE_PATTERNS, FORBIDDEN_HEALTH_TERMS])
  have hhr := hnc "hr".data (by simp [SENSITIVE_PATTERNS, FORBIDDEN_HEALTH_TERMS])
  have hbpm := hnc "bpm".data (by simp [SENSITIVE_PATTERNS, FORBIDDEN_HEALTH_TERMS])
  have hbeats := hnc "beats per minute".data (by simp [SENSITIVE_PATTERNS, FORBIDDEN_HEALTH_TERMS])
  have hsteps := hnc "steps".data (by simp [SENSITIVE_PATTERNS, FORBIDDEN_HEALTH_TERMS])
  have hstepc := hnc "step count".data (by simp [SENSITIVE_PATTERNS, FORBIDDEN_HEALTH_TERMS])
  have hstress := hnc "stress".data (by simp [SENSITIVE_PATTERNS, FORBIDDEN_HEALTH_TERMS])
  unfold sanitizeL
  cases hemp : t.isEmpty with
  | true => simp
  | false =>
    simp only [hemp, Bool.false_eq_true, if_false]
    have hA : scanSub matchBpm t.length false t = t := by
      refine scanSub_id _ _ _ ?_ _
      intro pw s hs
      exact matchBpm_none (containsCI_suffix_false hbpm hs)
    have hB : scanSub matchSteps t.length false t = t := by
      refine scanSub_id _ _ _ ?_ _
      intro pw s hs
      exact matchSteps_none (containsCI_suffix_false hsteps hs)
    have hC : scanSub (fun _ s => matchVital s) t.length false t = t := by
      refine scanSub_id _ _ _ ?_ _
      intro pw s hs
      exact matchVital_none (containsCI_suffix_false hvital hs)
    have hD : FORBIDDEN_HEALTH_TERMS.foldl applyTerm t = t := by
      simp only [FORBIDDEN_HEALTH_TERMS, List.foldl]
      rw [applyTerm_id hheart, applyTerm_id hhr, applyTerm_id hbpm,
        applyTerm_id hbeats, applyTerm_id hsteps, applyTerm_id hstepc,
        applyTerm_id hstress]
    rw [hA, hB, hC, hD, collapseWs_id _ _ hrun, pyStrip_id t hlead htrail]

/-- Helper shared by the sanitizer claims, at the `String` level. -/
theorem sanitize_text_of_clean (s : String) (h : cleanText s.data = true) :
    sanitize_text s = s := by
  unfold sanitize_text
  rw [sanitizeL_of_clean s.data h]

/-- C2 counterexample: the sanitizer is not idempotent.  Removing the
forbidden term `"hr"` from `"hhrr"` splices the leftover characters into a
new `"hr"`, so a second application removes more:
`sanitize_text "hhrr" = "hr"` but `sanitize_text "hr" = ""`. -/
theorem sanitizer_not_idempotent :
    sanitize_text (sanitize_text "hhrr") ≠ sanitize_text "hhrr" := by decide

/-- C2 (amended): the sanitizer is idempotent on every input whose
sanitized output is clean — contains no sensitive pattern
(case-insensitively), no run of two or more whitespace characters, and no
leading or trailing whitespace.  (In general idempotence fails, because
removing a forbidden term can splice together a new occurrence.) -/
theorem sanitizer_idempotent_on_clean (s : String)
    (h : cleanText (sanitize_text s).data = true) :
    sanitize_text (sanitize_text s) = sanitize_text s :=
  sanitize_text_of_clean _ h

/-- Witness for C2 (amended) at `"65 bpm hello"`, whose sanitized form
`"hello"` is clean. -/
theorem sanitizer_idempotent_on_clean_witness :
    cleanText (sanitize_text "65 bpm hello").data = true ∧
    sanitize_text (sanitize_text "65 bpm hello") = sanitize_text "65 bpm hello" :=
  ⟨by decide, sanitizer_idempotent_on_clean "65 bpm hello" (by decide)⟩

/-- C8 counterexample: a string containing none of the sensitive
patterns can still be altered — the sanitizer unconditionally collapses
whitespace runs and strips the ends, so `"a  b"` becomes `"a b"`. -/
theorem sanitizer_alters_unrelated_text :
    noSensitive "a  b".data = true ∧ sanitize_text "a  b" ≠ "a  b" :=
  ⟨by decide, by decide⟩

/-- C8 (amended): the sanitizer returns unchanged every string that
contains none of the sensitive-measurement patterns and, in addition, has
no run of two or more whitespace characters and no leading or trailing
whitespace. -/
theorem sanitizer_preserves_clean (s : String)
    (h : cleanText s.data = true) : sanitize_text s = s :=
  sanitize_text_of_clean s h

/-- Witness for C8 (amended). -/
theorem sanitizer_preserves_clean_witness :
    cleanText "Lunch at the park with Maria.".data = true ∧
    sanitize_text "Lunch at the park with Maria." = "Lunch at the park with Maria." :=
  ⟨by decide, sanitizer_preserves_clean "Lunch at the park with Maria." (by decide)⟩

/-! ### Session summarizer (`timeline.summarize_session`) -/

/-- The contents of a Python `set` built by iterating a list left to
right: the deduplicated elements in first-seen order.  (Iterating the
resulting `set` may present these contents in any order.) -/
def pyDedup (l : List String) : List String :=
  l.foldl (fun acc x => if x ∈ acc then acc else acc ++ [x]) []

/-- `summarize_session(session)` with `session = []` evaluates
`session[0]`, raising `IndexError` — the precondition-violation
(InvalidInput) failure of the spec's error taxonomy. -/
inductive SummarizeError
  | invalidInput
deriving DecidableEq, Repr

/-- The summary dictionary built by `timeline.summarize_session`. -/
structure SessionSummary where
  start : Int
  endTime : Int
  locations : List String
  people : List String
  titles : List String
  raw_events : List Event
deriving DecidableEq, Repr

/-- `timeline.summarize_session`.  The Python code materialises
`locations` and `people` as `set`s and returns `list(…)` of them; a
`set`'s iteration order is unspecified (hash- and seed-dependent), so it
is modelled by the enumeration parameter `σ`, applied to the set's
contents (the first-seen-order deduplicated list); an admissible `σ`
returns some permutation of its argument. -/
def summarize_session (σ : List String → List String) (session : List Event) :
    Except SummarizeError SessionSummary :=
  match session with
  | [] => .error .invalidInput
  | e0 :: rest =>
    let lastEv := rest.getLastD e0
    .ok {
      start := e0.timestamp_start
      endTime := lastEv.timestamp_end.getD lastEv.timestamp_start
      locations := σ (pyDedup ((e0 :: rest).filterMap (fun e =>
        match e.location with
        | some l => if l ≠ "" then some l else none
        | none => none)))
      people := σ (pyDedup (((e0 :: rest).map (fun e => e.people)).flatten))
      titles := ((e0 :: rest).map (fun e => e.title)).filter (fun s => s ≠ "")
      raw_events := e0 :: rest }

/-- C7: the summarizer rejects exactly the empty session, failing with
the InvalidInput kind of error; on every non-empty session it succeeds,
with summary start the first event's start and summary end the last
event's end if present, else the last event's start. -/
theorem summarizer_empty_rejected :
    (∀ σ, summarize_session σ [] = .error .invalidInput) ∧
    (∀ (σ : List String → List String) (e0 : Event) (rest : List Event),
      ∃ sm, summarize_session σ (e0 :: rest) = .ok sm ∧
        sm.start = e0.timestamp_start ∧
        sm.endTime = ((rest.getLastD e0).timestamp_end).getD
          (rest.getLastD e0).timestamp_start) :=
  ⟨fun _ => rfl, fun _ _ _ => ⟨_, rfl, rfl, rfl⟩⟩

/-- C3 counterexample: `list(set)` order is unspecified, so first-seen
order of locations is not guaranteed.  Reversal is an admissible set
enumeration (it permutes the contents), and under it the session with
locations Home, Home, Clinic summarizes to `["Clinic", "Home"]`, not
`["Home", "Clinic"]`. -/
theorem summarizer_order_counterexample :
    (∀ l : List String, List.Perm (List.reverse l) l) ∧
    ((summarize_session List.reverse
        [⟨"e1", 0, none, "location", "", [], [], some "Home"⟩,
         ⟨"e2", 60, none, "location", "", [], [], some "Home"⟩,
         ⟨"e3", 120, none, "location", "", [], [], some "Clinic"⟩]).toOption.map
        (fun sm => sm.locations) = some ["Clinic", "Home"]) ∧
    (["Clinic", "Home"] ≠ ["Home", "Clinic"]) :=
  ⟨fun l => List.reverse_perm l, by decide, by decide⟩

theorem pyDedup_aux_nodup :
    ∀ (l acc : List String), acc.Nodup →
      (l.foldl (fun acc x => if x ∈ acc then acc else acc ++ [x]) acc).Nodup := by
  intro l
  induction l with
  | nil => intro acc h; exact h
  | cons x l ih =>
    intro acc h
    simp only [List.foldl]
    by_cases hx : x ∈ acc
    · rw [if_pos hx]; exact ih acc h
    · rw [if_neg hx]
      refine ih (acc ++ [x]) ?_
      rw [List.nodup_append]
      exact ⟨h, List.nodup_singleton x, by
        intro a ha hb
        rw [List.mem_singleton.mp hb] at ha
        exact hx ha⟩

theorem pyDedup_nodup (l : List String) : (pyDedup l).Nodup :=
  pyDedup_aux_nodup l [] List.nodup_nil

/-- C3 (amended): for every admissible set enumeration and non-empty
session, `locations` is a duplicate-free permutation of the non-empty
location fields' first-seen deduplication, and `people` a duplicate-free
permutation of the first-seen deduplication of all people entries —
i.e. the summary carries the right *sets*, with no order guarantee. -/
theorem summarizer_sets_amended (σ : List String → List String)
    (hσ : ∀ l : List String, List.Perm (σ l) l)
    (e0 : Event) (rest : List Event) :
    ∃ sm, summarize_session σ (e0 :: rest) = .ok sm ∧
      List.Perm sm.locations (pyDedup ((e0 :: rest).filterMap (fun e =>
        match e.location with
        | some l => if l ≠ "" then some l else none
        | none => none))) ∧
      sm.locations.Nodup ∧
      List.Perm sm.people (pyDedup (((e0 :: rest).map (fun e => e.people)).flatten)) ∧
      sm.people.Nodup := by
  refine ⟨_, rfl, hσ _, ?_, hσ _, ?_⟩
  · exact ((hσ _).symm).nodup (pyDedup_nodup _)
  · exact ((hσ _).symm).nodup (pyDedup_nodup _)

/-- Witness for C3 (amended) with the identity enumeration on a
one-event session. -/
theorem summarizer_sets_amended_witness :
    ∃ sm, summarize_session id
        [⟨"e1", 0, none, "location", "", [], ["Maria"], some "Home"⟩] = .ok sm ∧
      List.Perm sm.locations (pyDedup ([⟨"e1", 0, none, "location", "",
        [], ["Maria"], some "Home"⟩].filterMap (fun (e : Event) =>
        match e.location with
        | some l => if l ≠ "" then some l else none
        | none => none))) ∧
      sm.locations.Nodup ∧
      List.Perm sm.people (pyDedup (([⟨"e1", 0, none, "location", "",
        [], ["Maria"], some "Home"⟩].map (fun (e : Event) => e.people)).flatten)) ∧
      sm.people.Nodup :=
  summarizer_sets_amended id (fun l => List.Perm.refl l) _ []

/-! ### Narrative and caregiver summary (`story_generator.py`) -/

/-- Python `str.lower()` (ASCII range suffices for the generated text). -/
def strLower (s : String) : String := ⟨s.data.map Char.toLower⟩

/-- `story_generator._time_period`. -/
def time_period (t : Int) : String :=
  if hourOf t < 12 then "in the morning"
  else if hourOf t < 17 then "in the afternoon"
  else "in the evening"

/-- Two-digit zero-padded rendering, as `strftime` field output. -/
def pad2 (n : Int) : String := if n < 10 then "0" ++ toString n else toString n

/-- `strftime("%H:%M")`. -/
def fmtHM (t : Int) : String := pad2 (hourOf t) ++ ":" ++ pad2 (minuteOf t)

/-- `_clean_titles_for_story`'s STOP_WORDS set. -/
def STOP_WORDS : List String := ["low", "medium", "high", "normal", "~"]

/-- `_clean_titles_for_story`'s clinical-fragment blocklist. -/
def CLINICAL_FRAGMENTS : List String := ["bpm", "hr ", "hr~", "stress", "steps"]

/-- `re.split(r"[|,;/]", t)`: split into segments at the separator
characters, preserving empty segments. -/
def splitSegs : List Char → List (List Char)
  | [] => [[]]
  | c :: cs =>
    if c == '|' || c == ',' || c == ';' || c == '/' then
      [] :: splitSegs cs
    else
      match splitSegs cs with
      | [] => [[c]]
      | s :: rest => (c :: s) :: rest

/-- The per-segment filter of `_clean_titles_for_story`: strip, then drop
empty segments, stop words, segments with clinical fragments, digits, no
letters, or length under 3; keep the stripped segment otherwise. -/
def keepSegment (seg : List Char) : Option String :=
  let seg := pyStrip seg
  if seg.isEmpty then none
  else
    let low := seg.map Char.toLower
    if (STOP_WORDS.map String.data).contains low then none
    else if CLINICAL_FRAGMENTS.any (fun k => containsCI k.data low) then none
    else if seg.any Char.isDigit then none
    else if !(seg.any Char.isAlpha) || seg.length < 3 then none
    else some ⟨seg⟩

/-- `story_generator._clean_titles_for_story`. -/
def clean_titles_for_story (raw_titles : List String) : String :=
  let segments := raw_titles.flatMap (fun t =>
    (splitSegs (sanitizeL t.data)).filterMap keepSegment)
  if segments.isEmpty then ""
  else String.intercalate ", " ((pyDedup segments).take 3)

/-- One sentence of the narrative body (`_fallback_narrative` loop). -/
def momentSentence (s : SessionSummary) : String :=
  let locs := if s.locations.isEmpty then "" else String.intercalate ", " s.locations
  let loc_phrase := if locs ≠ "" then " at " ++ locs else " in a familiar place"
  let people := if s.people.isEmpty then "" else String.intercalate ", " s.people
  let people_phrase := if people ≠ "" then " with " ++ people else ""
  let titles_str := clean_titles_for_story s.titles
  let act_phrase := if titles_str ≠ "" then " while focusing on " ++ strLower titles_str
    else ""
  "During one moment " ++ time_period s.start ++ ", between " ++ fmtHM s.start ++
    " and " ++ fmtHM s.endTime ++ ", you spent time" ++ loc_phrase ++ people_phrase ++
    act_phrase ++ "."

/-- `story_generator._fallback_narrative` (the loop breaks after the
fourth summary). -/
def fallback_narrative (session_summaries : List SessionSummary)
    (target_date_str : String) : String :=
  if session_summaries.isEmpty then
    "Only a few small moments were recorded on " ++ target_date_str ++
      ", but it was still your day, shaped by your own rhythm and choices."
  else
    "On " ++ target_date_str ++ ", a few key moments from your day were recorded." ++
      " " ++
      String.intercalate " " ((session_summaries.take 4).map momentSentence) ++
      "\n\n" ++
      "Even though these notes do not capture every detail, " ++
      "they still trace a gentle outline of how you moved through your day."

def HEALTH_WORDS : List String :=
  ["health", "doctor", "clinic", "hospital", "appointment", "check"]

def MESSAGE_WORDS : List String := ["message", "whatsapp", "text"]

/-- `word in title.lower()` for a lowercase keyword. -/
def titleHasAny (words : List String) (title : String) : Bool :=
  words.any (fun w => containsCI w.data title.data)

/-- `_rule_based_caregiver_summary`'s `_unique`: first-seen dedup that
also drops falsy (empty) strings. -/
def pyDedupNonEmpty (l : List String) : List String :=
  l.foldl (fun acc x => if x ≠ "" ∧ x ∉ acc then acc ++ [x] else acc) []

/-- The bullet list `_rule_based_caregiver_summary` builds *before* the
final per-bullet sanitization pass. -/
def caregiverBulletsRaw (session_summaries : List SessionSummary) : List String :=
  let all_titles := (session_summaries.map (fun s => s.titles)).flatten
  let has_health := all_titles.any (titleHasAny HEALTH_WORDS)
  let has_messages := all_titles.any (titleHasAny MESSAGE_WORDS)
  let has_calls := all_titles.any (titleHasAny ["call"])
  let locs_unique := pyDedupNonEmpty ((session_summaries.map (fun s => s.locations)).flatten)
  let people_unique := pyDedupNonEmpty ((session_summaries.map (fun s => s.people)).flatten)
  let comms_parts := (if has_calls then ["phone calls"] else []) ++
    (if has_messages then ["messages"] else [])
  ["- There were " ++ toString session_summaries.length ++
    " recorded activity periods today."] ++
  (if !locs_unique.isEmpty then
    ["- Activities took place at locations such as " ++
      String.intercalate ", " (locs_unique.take 4) ++ "."] else []) ++
  (if !people_unique.isEmpty then
    ["- Time was spent with " ++ String.intercalate ", " (people_unique.take 4) ++ "."]
   else []) ++
  (if !comms_parts.isEmpty then
    ["- The log for this day includes " ++ String.intercalate " and " comms_parts ++
      " with others."] else []) ++
  (if has_health then
    ["- Some entries relate to health checks or appointments earlier in the day (without detailed measurements)."]
   else []) ++
  ["- Continue gentle check-ins according to the usual routine."]

/-- `story_generator._rule_based_caregiver_summary`: builds the bullets,
passes each through `_sanitize_text`, joins with newlines.  The empty
case returns its fixed message directly (no sanitization pass). -/
def rule_based_caregiver_summary (session_summaries : List SessionSummary) : String :=
  if session_summaries.isEmpty then
    "- No specific activities were recorded for this day.\n- Continue gentle check-ins as usual."
  else
    String.intercalate "\n" ((caregiverBulletsRaw session_summaries).map sanitize_text)

/-- The pair returned by `story_generator.generate_ai_story_with_ollama`. -/
structure StoryResult where
  memory_story : String
  caregiver_summary : String
deriving DecidableEq, Repr

/-- `story_generator.generate_ai_story_with_ollama`: both outputs are
produced deterministically; no model call is made. -/
def generate_ai_story_with_ollama (session_summaries : List SessionSummary)
    (target_date_str : String) : StoryResult :=
  { memory_story := fallback_narrative session_summaries target_date_str
    caregiver_summary := rule_based_caregiver_summary session_summaries }

/-- A concrete one-session summary (09:00–10:00, nothing else) used to
exhibit C4's failure. -/
def plainMorningSummary : SessionSummary :=
  { start := 32400, endTime := 36000, locations := [], people := [],
    titles := [], raw_events := [] }

set_option maxRecDepth 80000 in
/-- C4 counterexample: the returned narrative is *not* Sanitizer-fixed —
it is never passed through the Sanitizer, and for any non-empty summary
list its closing template contains `"through"` (⊇ the forbidden bare term
`"hr"`) and a blank line, both of which another Sanitizer pass alters. -/
theorem narrative_not_sanitized :
    sanitize_text ((generate_ai_story_with_ollama [plainMorningSummary]
        "2025-01-01").memory_story)
      ≠ (generate_ai_story_with_ollama [plainMorningSummary]
        "2025-01-01").memory_story := by decide

/-- C4 (amended): of the two outputs, only the caregiver summary passes
through the Sanitizer — for a non-empty summary list it is exactly the
newline-join of the raw bullets each passed through `_sanitize_text`,
while the narrative is returned as the raw template rendering with no
final Sanitizer pass. -/
theorem outputs_sanitization_structure (session_summaries : List SessionSummary)
    (target_date_str : String) (h : session_summaries ≠ []) :
    generate_ai_story_with_ollama session_summaries target_date_str =
      { memory_story := fallback_narrative session_summaries target_date_str
        caregiver_summary := String.intercalate "\n"
          ((caregiverBulletsRaw session_summaries).map sanitize_text) } := by
  cases session_summaries with
  | nil => exact absurd rfl h
  | cons s ss => rfl

/-- Witness for C4 (amended). -/
theorem outputs_sanitization_structure_witness :
    generate_ai_story_with_ollama [plainMorningSummary] "2025-01-01" =
      { memory_story := fallback_narrative [plainMorningSummary] "2025-01-01"
        caregiver_summary := String.intercalate "\n"
          ((caregiverBulletsRaw [plainMorningSummary]).map sanitize_text) } :=
  outputs_sanitization_structure [plainMorningSummary] "2025-01-01" (by simp)

/-! ### Engine pipeline and CLI (`main_memory_engine.py`)

The CSV loading is file I/O performed by the per-source normalizers; the
pure pipeline from the loaded `events_by_source` dict (an insertion-ordered
association list here) down to the returned result dict is embedded.
`isoformat` abstracts calendar rendering of the target date to its day
number; the claims below use only that it is a fixed rendering. -/

def isoformat (d : Int) : String := toString d

/-- The result dict of `run_engine_for_date`. -/
structure EngineResult where
  target_date : Int
  total_events : Nat
  num_sessions : Nat
  memory_story : String
  caregiver_summary : String
  per_source_counts : List (String × Nat)
deriving DecidableEq, Repr

/-- `main_memory_engine.run_engine_for_date`, from the point where all
sources have been loaded.  (`summarize_session` never fails here because
the grouper emits only non-empty sessions — see `grouper_conserves`; the
`.toOption` discharge of the impossible error case reflects that.) -/
def run_engine_for_date (σ : List String → List String)
    (events_by_source : List (String × List Event))
    (target_date : Int) (gap_minutes : Int) : EngineResult :=
  let all_events := (events_by_source.map Prod.snd).flatten
  let day_events := filter_events_for_day all_events target_date
  if day_events.isEmpty then
    { target_date := target_date
      total_events := 0
      num_sessions := 0
      memory_story := "No events were found for " ++ isoformat target_date ++
        ". There is nothing to reconstruct for this day."
      caregiver_summary := "- No specific activities were recorded for this date.\n- Continue gentle check-ins according to the usual routine."
      per_source_counts := events_by_source.map (fun p => (p.1, p.2.length)) }
  else
    let sessions := group_into_sessions day_events gap_minutes
    let summaries := sessions.filterMap (fun s => (summarize_session σ s).toOption)
    let result := generate_ai_story_with_ollama summaries (isoformat target_date)
    { target_date := target_date
      total_events := day_events.length
      num_sessions := sessions.length
      memory_story := result.memory_story
      caregiver_summary := result.caregiver_summary
      per_source_counts := events_by_source.map (fun p => (p.1, p.2.length)) }

/-- The lines `main` prints before it branches on whether the day is
empty (one list entry per `print` call). -/
def mainPrefixLines (events_by_source : List (String × List Event))
    (data_dir : String) (target_date : Int) : List String :=
  ("Loading events for " ++ isoformat target_date ++ " from '" ++ data_dir ++
      "'...\n") ::
    events_by_source.map (fun p => p.1 ++ " events: " ++ toString p.2.length) ++
    ["\nTotal events loaded (all days): " ++
        toString ((events_by_source.map (fun p => p.2.length)).sum),
     "Total events on " ++ isoformat target_date ++ ": " ++
        toString (filter_events_for_day
          ((events_by_source.map Prod.snd).flatten) target_date).length]

/-- `main_memory_engine.main` after argument parsing and loading: the
sequence of printed lines. -/
def mainOutput (σ : List String → List String)
    (events_by_source : List (String × List Event)) (data_dir : String)
    (target_date : Int) (gap_minutes : Int) : List String :=
  let day_events := filter_events_for_day
    ((events_by_source.map Prod.snd).flatten) target_date
  if day_events.isEmpty then
    mainPrefixLines events_by_source data_dir target_date ++
      ["\nNo events found for this date. Nothing to send to the story generator."]
  else
    let sessions := group_into_sessions day_events gap_minutes
    let summaries := sessions.filterMap (fun s => (summarize_session σ s).toOption)
    let result := generate_ai_story_with_ollama summaries (isoformat target_date)
    mainPrefixLines events_by_source data_dir target_date ++
      ["Number of sessions: " ++ toString sessions.length ++ "\n",
       "\n=== MEMORY STORY (AI) ===\n", result.memory_story,
       "\n=== CAREGIVER SUMMARY (AI) ===\n", result.caregiver_summary]

/-- C9: a day with no events is a valid terminal outcome, not an error:
the engine returns zero counts and a fixed, non-empty "nothing happened"
story (the early return — grouper and summarizer are never reached), and
the CLI prints its fixed prefix followed by a distinct no-events line
instead of the story sections. -/
theorem empty_day_is_valid_outcome (σ : List String → List String)
    (events_by_source : List (String × List Event)) (target_date gap : Int)
    (data_dir : String)
    (h : filter_events_for_day ((events_by_source.map Prod.snd).flatten)
      target_date = []) :
    run_engine_for_date σ events_by_source target_date gap =
      { target_date := target_date
        total_events := 0
        num_sessions := 0
        memory_story := "No events were found for " ++ isoformat target_date ++
          ". There is nothing to reconstruct for this day."
        caregiver_summary := "- No specific activities were recorded for this date.\n- Continue gentle check-ins according to the usual routine."
        per_source_counts := events_by_source.map (fun p => (p.1, p.2.length)) } ∧
    (run_engine_for_date σ events_by_source target_date gap).memory_story ≠ "" ∧
    mainOutput σ events_by_source data_dir target_date gap =
      mainPrefixLines events_by_source data_dir target_date ++
        ["\nNo events found for this date. Nothing to send to the story generator."] := by
  have hrec : run_engine_for_date σ events_by_source target_date gap =
      { target_date := target_date
        total_events := 0
        num_sessions := 0
        memory_story := "No events were found for " ++ isoformat target_date ++
          ". There is nothing to reconstruct for this day."
        caregiver_summary := "- No specific activities were recorded for this date.\n- Continue gentle check-ins according to the usual routine."
        per_source_counts := events_by_source.map (fun p => (p.1, p.2.length)) } := by
    simp only [run_engine_for_date]
    rw [h]
    rfl
  refine ⟨hrec, ?_, ?_⟩
  · rw [hrec]
    intro heq
    have hlen := congrArg String.length heq
    rw [String.length_append, String.length_append] at hlen
    have h1 : ("No events were found for " : String).length = 25 := rfl
    have h2 : ("" : String).length = 0 := rfl
    rw [h1, h2] at hlen
    omega
  · simp only [mainOutput]
    rw [h]
    rfl

/-- Witness for C9: one calendar event dated day 1, queried for day 0. -/
theorem empty_day_is_valid_outcome_witness :
    filter_events_for_day
      (([("Calendar", [⟨"c1", 100000, none, "calendar", "Walk", [], [], none⟩])].map
        Prod.snd).flatten) 0 = [] ∧
    (run_engine_for_date id
      [("Calendar", [⟨"c1", 100000, none, "calendar", "Walk", [], [], none⟩])]
      0 60).total_events = 0 ∧
    (run_engine_for_date id
      [("Calendar", [⟨"c1", 100000, none, "calendar", "Walk", [], [], none⟩])]
      0 60).memory_story ≠ "" := by
  have hfl : (([("Calendar",
      [⟨"c1", 100000, none, "calendar", "Walk", [], [], none⟩])].map
        Prod.snd).flatten) =
      [(⟨"c1", 100000, none, "calendar", "Walk", [], [], none⟩ : Event)] := rfl
  have h2 : List.filter
      (fun e => dateOf e.timestamp_start == (0 : Int))
      [(⟨"c1", 100000, none, "calendar", "Walk", [], [], none⟩ : Event)] = [] := by
    decide
  have hf : filter_events_for_day
      (([("Calendar", [⟨"c1", 100000, none, "calendar", "Walk", [], [], none⟩])].map
        Prod.snd).flatten) 0 = [] := by
    unfold filter_events_for_day
    rw [hfl, h2]
    exact List.mergeSort_nil
  have happ := empty_day_is_valid_outcome id
    [("Calendar", [⟨"c1", 100000, none, "calendar", "Walk", [], [], none⟩])]
    0 60 "data" hf
  exact ⟨hf, by rw [happ.1], happ.2.1⟩

end MemViewer
